import Mathlib

/-!
Verification of the migration/versioning subsystem and the CRUD error paths of
the sillyhatxu/sqlite-client library, shallowly embedded in Lean.

The migration runner (`options.go`) is modelled as explicit state passing over
a ledger (the `schema_version` table, a list of rows in insertion order).
External effects — directory listing, file reads, DDL execution, row inserts,
wall-clock duration — are supplied by an environment of oracles, mirroring the
success/failure branching of the Go code exactly.  The CRUD helpers
(`client.go`) are modelled the same way: each fallible collaborator call is an
oracle outcome and the function reproduces the Go control flow over them.
-/

namespace SqliteClient

/-- Status string constant `SchemaVersionStatusSuccess` from options.go. -/
def SchemaVersionStatusSuccess : String := "SUCCESS"

/-- Status string constant `SchemaVersionStatusError` from options.go. -/
def SchemaVersionStatusError : String := "ERROR"

/-- The `DDLSchemaVersion` statement text from options.go, used as the key
identifying the create-table execution in the environment. -/
def DDLSchemaVersion : String := "CREATE TABLE IF NOT EXISTS schema_version (id INTEGER PRIMARY KEY AUTOINCREMENT, script TEXT NOT NULL, checksum TEXT NOT NULL, execution_time TEXT NOT NULL, status TEXT NOT NULL, created_time datetime default current_timestamp);"

/-- A row of the `schema_version` table (struct `SchemaVersion` in options.go).
The `id` and `created_time` columns are assigned by the database and never
inspected by the runner, so the model keeps the four columns the runner reads
and writes: script, checksum (decimal string), execution time, status. -/
structure SchemaVersion where
  script : String
  checksum : String
  executionTime : String
  status : String
  deriving DecidableEq, Repr

/-- A directory entry of the migration-script directory: its file name and the
result of reading its content (`none` models an `ioutil.ReadFile` failure).
Content is the raw byte sequence, each entry a value below 256. -/
structure FileEntry where
  name : String
  content : Option (List Nat)
  deriving DecidableEq, Repr

/-- Environment of external-effect oracles consumed by the runner:
`flyway` and the directory come from `Config`; `dirListing = none` models an
`ioutil.ReadDir` failure; `createTableOk` is the outcome of `ExecDDL` on
`DDLSchemaVersion`; `execOk` the outcome of `ExecDDL` on a script's content;
`insertOk` the outcome of the `Insert` issued by `insertSchemaVersion`;
`durationOf` the measured, formatted execution time of a script. -/
structure Env where
  flyway : Bool
  dirListing : Option (List FileEntry)
  createTableOk : Bool
  execOk : List Nat → Bool
  insertOk : SchemaVersion → Bool
  durationOf : String → String

/-- Database state visible to the runner: `none` means the `schema_version`
table does not exist yet; `some rows` its rows in insertion order. -/
structure DBState where
  ledger : Option (List SchemaVersion)
  deriving DecidableEq, Repr

/-- The error values the migration path can return, one constructor per
`return err` source in options.go. -/
inductive MErr where
  /-- ReadFile of a script failed. -/
  | readErr (script : String)
  /-- The message built at options.go:190, a previously applied script's content changed. -/
  | fileChanged (script : String)
  /-- The message built at options.go:115, the ledger holds an ERROR row. -/
  | abnormalState (script : String)
  /-- ExecDDL of a script's content failed. -/
  | execErr (script : String)
  /-- ExecDDL of `DDLSchemaVersion` failed. -/
  | ddlErr
  /-- Querying `schema_version` failed because the table is absent. -/
  | noTable
  deriving DecidableEq, Repr

/-- FNV-1 64-bit hash of a byte sequence, the function `hash64` in options.go
(`fnv.New64` is FNV-1: for each byte, multiply by the prime modulo 2^64 then
xor the byte in).  The Go version takes the bytes of a string and its write
step can never fail, so the model is total. -/
def hash64 (bytes : List Nat) : Nat :=
  bytes.foldl (fun h b => (h * 1099511628211 % 2 ^ 64) ^^^ (b % 256)) 14695981039346656037

/-- Model of `findByScript` (options.go:103): first row whose script equals
the given name, `none` when absent. -/
def findByScript (script : String) (svArray : List SchemaVersion) : Option SchemaVersion :=
  svArray.find? (fun sv => sv.script == script)

/-- Model of `hasError` (options.go:112): the abnormal-state error for the
first ERROR row, `none` when the ledger holds no ERROR row. -/
def hasError (svArray : List SchemaVersion) : Option MErr :=
  match svArray.find? (fun sv => sv.status == SchemaVersionStatusError) with
  | some sv => some (MErr.abnormalState sv.script)
  | none => none

/-- Model of `SchemaVersionArray` (options.go:242): fold the queried rows into
a slice that starts out nil (`none`), then turn a still-nil slice into the
empty slice, exactly the `svArray == nil` check of the Go code. -/
def schemaVersionArrayLoop (rows : List SchemaVersion) : Option (List SchemaVersion) :=
  rows.foldl (fun acc sv => some (acc.getD [] ++ [sv])) none

/-- Model of `SchemaVersionArray` (options.go:242): all rows of
`schema_version` in insertion order, never nil. -/
def SchemaVersionArray (rows : List SchemaVersion) : List SchemaVersion :=
  (schemaVersionArrayLoop rows).getD []

/-- Model of `insertSchemaVersion` (options.go:213): append the row if the
underlying `Insert` succeeds; on failure the error is only logged, the ledger
is unchanged and no error reaches the caller. -/
def insertSchemaVersion (env : Env) (sv : SchemaVersion) (ledger : List SchemaVersion) :
    List SchemaVersion :=
  if env.insertOk sv then ledger ++ [sv] else ledger

/-- Model of `readFile` (options.go:178): read the script's content, hash it,
look it up in the snapshot `svArray`; a found row with equal checksum is a
skip, a found row with different checksum is the file-changed error; an
unseen script is executed, a row (status ERROR unless execution succeeded) is
inserted, and the execution error, if any, is returned.  Returns the ledger
after the call together with the returned error. -/
def readFile (env : Env) (f : FileEntry) (svArray ledger : List SchemaVersion) :
    List SchemaVersion × Option MErr :=
  match f.content with
  | none => (ledger, some (MErr.readErr f.name))
  | some b =>
    let checksum := hash64 b
    match findByScript f.name svArray with
    | some sv =>
      if sv.checksum = toString checksum then (ledger, none)
      else (ledger, some (MErr.fileChanged f.name))
    | none =>
      let ok := env.execOk b
      let schemaVersion : SchemaVersion :=
        { script := f.name
          checksum := toString checksum
          executionTime := env.durationOf f.name
          status := if ok then SchemaVersionStatusSuccess else SchemaVersionStatusError }
      let ledger2 := insertSchemaVersion env schemaVersion ledger
      (ledger2, if ok then none else some (MErr.execErr f.name))

/-- The `for _, f := range files` loop of `executeFlayway` (options.go:169):
process each file against the fixed snapshot `svArray`, threading the ledger,
stopping at the first error. -/
def processFiles (env : Env) (files : List FileEntry) (svArray ledger : List SchemaVersion) :
    List SchemaVersion × Option MErr :=
  match files with
  | [] => (ledger, none)
  | f :: rest =>
    match readFile env f svArray ledger with
    | (l2, some e) => (l2, some e)
    | (l2, none) => processFiles env rest svArray l2

/-- Model of `executeFlayway` (options.go:156): a failed directory listing
returns nil; otherwise fetch the rows, abort if any is ERROR, then process
the files in listing order. -/
def executeFlayway (env : Env) (db : DBState) : DBState × Option MErr :=
  match env.dirListing with
  | none => (db, none)
  | some files =>
    match db.ledger with
    | none => (db, some MErr.noTable)
    | some rows =>
      let svArray := SchemaVersionArray rows
      match hasError svArray with
      | some e => (db, some e)
      | none =>
        let r := processFiles env files svArray rows
        ({ ledger := some r.1 }, r.2)

/-- Model of `initialSchemaVersion` (options.go:220): return nil if the
`schema_version` table exists, otherwise create it via `ExecDDL`. -/
def initialSchemaVersion (env : Env) (db : DBState) : DBState × Option MErr :=
  match db.ledger with
  | some _ => (db, none)
  | none =>
    if env.createTableOk then ({ ledger := some [] }, none)
    else (db, some MErr.ddlErr)

/-- Model of `initialFlayway` (options.go:141), the migration entry point run
during `Initial`: a no-op unless flyway is configured, otherwise ensure the
ledger table exists, then execute the flyway pass. -/
def initialFlayway (env : Env) (db : DBState) : DBState × Option MErr :=
  if env.flyway then
    let r1 := initialSchemaVersion env db
    match r1.2 with
    | some e => (r1.1, some e)
    | none => executeFlayway env r1.1
  else (db, none)

/-- The SUCCESS row that `readFile` inserts for an unseen script whose
execution succeeds. -/
def mkSuccessRec (env : Env) (f : FileEntry) : SchemaVersion :=
  { script := f.name
    checksum := toString (hash64 (f.content.getD []))
    executionTime := env.durationOf f.name
    status := SchemaVersionStatusSuccess }

/-- The ERROR row that `readFile` inserts for an unseen script whose
execution fails. -/
def mkErrorRec (env : Env) (f : FileEntry) (b : List Nat) : SchemaVersion :=
  { script := f.name
    checksum := toString (hash64 b)
    executionTime := env.durationOf f.name
    status := SchemaVersionStatusError }

/-- The rows a fully successful pass appends: one SUCCESS row per file not
found in the snapshot, in listing order. -/
def newRecs (env : Env) (files : List FileEntry) (svArray : List SchemaVersion) :
    List SchemaVersion :=
  (files.filter (fun f => (findByScript f.name svArray).isNone)).map (mkSuccessRec env)

/-- Outcomes of the external collaborator calls made by the CRUD helpers of
client.go: `getDBErr` is the error of `GetDB`, `prepareErr` of `db.Prepare`,
`stmtExecErr` of `stm.Exec`, `lastInsertId`/`lastInsertIdErr` the pair
returned by `result.LastInsertId`, `rowsAffected`/`rowsAffectedErr` the pair
returned by `result.RowsAffected`, `beginErr` of `db.Begin`, `callbackErr` of
the transaction callback, `commitErr` of `tx.Commit`, `scanErr` of
`QueryRow(...).Scan`, and `countVal` the scanned count. -/
structure SqlEnv where
  getDBErr : Option String
  prepareErr : Option String
  stmtExecErr : Option String
  lastInsertId : Int
  lastInsertIdErr : Option String
  rowsAffected : Int
  rowsAffectedErr : Option String
  beginErr : Option String
  callbackErr : Option String
  commitErr : Option String
  scanErr : Option String
  countVal : Int

/-- Model of `Insert` (client.go:157): note the `return 0, nil` when `GetDB`
fails; otherwise prepare, execute, and pass `LastInsertId` through. -/
def Insert (env : SqlEnv) : Int × Option String :=
  match env.getDBErr with
  | some _ => (0, none)
  | none =>
    match env.prepareErr with
    | some e => (0, some e)
    | none =>
      match env.stmtExecErr with
      | some e => (0, some e)
      | none => (env.lastInsertId, env.lastInsertIdErr)

/-- Model of `Update` (client.go:176): note the `return 0, nil` when `GetDB`
fails; otherwise prepare, execute, and pass `RowsAffected` through. -/
def Update (env : SqlEnv) : Int × Option String :=
  match env.getDBErr with
  | some _ => (0, none)
  | none =>
    match env.prepareErr with
    | some e => (0, some e)
    | none =>
      match env.stmtExecErr with
      | some e => (0, some e)
      | none => (env.rowsAffected, env.rowsAffectedErr)

/-- Model of `Delete` (client.go:195), identical in structure to `Update`. -/
def Delete (env : SqlEnv) : Int × Option String :=
  match env.getDBErr with
  | some _ => (0, none)
  | none =>
    match env.prepareErr with
    | some e => (0, some e)
    | none =>
      match env.stmtExecErr with
      | some e => (0, some e)
      | none => (env.rowsAffected, env.rowsAffectedErr)

/-- Model of `Transaction` (client.go:216): note the `return nil` when
`GetDB` fails; otherwise begin, run the callback (rolling back on its error),
and return the commit outcome. -/
def Transaction (env : SqlEnv) : Option String :=
  match env.getDBErr with
  | some _ => none
  | none =>
    match env.beginErr with
    | some e => some e
    | none =>
      match env.callbackErr with
      | some e => some e
      | none => env.commitErr

/-- Model of `Count` (client.go:389): after a successful `Begin`, the shadow
variable `err` is nil, and the scan failure branch returns `0, err` — the nil
`err`, not `countErr`. -/
def Count (env : SqlEnv) : Int × Option String :=
  match env.getDBErr with
  | some e => (0, some e)
  | none =>
    match env.beginErr with
    | some e => (0, some e)
    | none =>
      match env.scanErr with
      | some _ => (0, none)
      | none => (env.countVal, none)

/-! Helper lemmas about the embedded definitions. -/

theorem schemaVersionArrayLoop_some (rows : List SchemaVersion) :
    ∀ acc : List SchemaVersion,
      List.foldl (fun acc sv => some (acc.getD [] ++ [sv])) (some acc) rows =
        some (acc ++ rows) := by
  induction rows with
  | nil => intro acc; simp
  | cons sv rest ih =>
    intro acc
    simpa using ih (acc ++ [sv])

theorem schemaVersionArray_eq (rows : List SchemaVersion) :
    SchemaVersionArray rows = rows := by
  cases rows with
  | nil => rfl
  | cons sv rest =>
    unfold SchemaVersionArray schemaVersionArrayLoop
    simpa using congrArg (fun o => Option.getD o []) (schemaVersionArrayLoop_some rest [sv])

theorem findByScript_append (n : String) (l1 l2 : List SchemaVersion) :
    findByScript n (l1 ++ l2) = (findByScript n l1).or (findByScript n l2) := by
  unfold findByScript
  exact List.find?_append

theorem readFile_skip (env : Env) (f : FileEntry) (sv ledger : List SchemaVersion)
    (b : List Nat) (r : SchemaVersion)
    (hb : f.content = some b)
    (hfind : findByScript f.name sv = some r)
    (hcs : r.checksum = toString (hash64 b)) :
    readFile env f sv ledger = (ledger, none) := by
  simp [readFile, hb, hfind, hcs]

theorem readFile_changed (env : Env) (f : FileEntry) (sv ledger : List SchemaVersion)
    (b : List Nat) (r : SchemaVersion)
    (hb : f.content = some b)
    (hfind : findByScript f.name sv = some r)
    (hcs : r.checksum ≠ toString (hash64 b)) :
    readFile env f sv ledger = (ledger, some (MErr.fileChanged f.name)) := by
  simp [readFile, hb, hfind, hcs]

theorem readFile_execFail (env : Env) (f : FileEntry) (sv ledger : List SchemaVersion)
    (b : List Nat)
    (hb : f.content = some b)
    (hfind : findByScript f.name sv = none)
    (hexec : env.execOk b = false)
    (hins : env.insertOk (mkErrorRec env f b) = true) :
    readFile env f sv ledger = (ledger ++ [mkErrorRec env f b], some (MErr.execErr f.name)) := by
  simp [readFile, hb, hfind, hexec, insertSchemaVersion, mkErrorRec] at hins ⊢
  simp [hins]

theorem readFile_execOk (env : Env) (f : FileEntry) (sv ledger : List SchemaVersion)
    (b : List Nat)
    (hb : f.content = some b)
    (hfind : findByScript f.name sv = none)
    (hexec : env.execOk b = true)
    (hins : env.insertOk (mkSuccessRec env f) = true) :
    readFile env f sv ledger = (ledger ++ [mkSuccessRec env f], none) := by
  simp [readFile, hb, hfind, hexec, insertSchemaVersion, mkSuccessRec] at hins ⊢
  simp [hins, hb]

theorem processFiles_append (env : Env) (sv : List SchemaVersion) :
    ∀ (xs : List FileEntry) (L L1 : List SchemaVersion),
      processFiles env xs sv L = (L1, none) →
      ∀ ys, processFiles env (xs ++ ys) sv L = processFiles env ys sv L1 := by
  intro xs
  induction xs with
  | nil =>
    intro L L1 h ys
    simp [processFiles] at h
    simp [h]
  | cons f rest ih =>
    intro L L1 h ys
    rcases hr : readFile env f sv L with ⟨l2, e⟩
    cases e with
    | some e0 => simp [processFiles, hr] at h
    | none =>
      simp only [processFiles, hr] at h
      simpa only [List.cons_append, processFiles, hr] using ih l2 L1 h ys

theorem processFiles_all_skip (env : Env) :
    ∀ (files : List FileEntry) (sv : List SchemaVersion),
      (∀ f ∈ files, ∃ b r, f.content = some b ∧ findByScript f.name sv = some r ∧
        r.checksum = toString (hash64 b)) →
      ∀ L, processFiles env files sv L = (L, none) := by
  intro files
  induction files with
  | nil => intro sv _ L; simp [processFiles]
  | cons f rest ih =>
    intro sv h L
    obtain ⟨b, r, hb, hfind, hcs⟩ := h f (by simp)
    have hskip := readFile_skip env f sv L b r hb hfind hcs
    simp only [processFiles, hskip]
    exact ih sv (fun g hg => h g (by simp [hg])) L

theorem newRecs_nil (env : Env) (sv : List SchemaVersion) : newRecs env [] sv = [] := rfl

theorem newRecs_cons_found (env : Env) (f : FileEntry) (rest : List FileEntry)
    (sv : List SchemaVersion) (r : SchemaVersion) (hfind : findByScript f.name sv = some r) :
    newRecs env (f :: rest) sv = newRecs env rest sv := by
  simp [newRecs, List.filter, hfind]

theorem newRecs_cons_notfound (env : Env) (f : FileEntry) (rest : List FileEntry)
    (sv : List SchemaVersion) (hfind : findByScript f.name sv = none) :
    newRecs env (f :: rest) sv = mkSuccessRec env f :: newRecs env rest sv := by
  simp [newRecs, List.filter, hfind]

theorem processFiles_ok_spec (env : Env) (hins : ∀ r, env.insertOk r = true) :
    ∀ (files : List FileEntry) (sv L L' : List SchemaVersion),
      processFiles env files sv L = (L', none) →
      L' = L ++ newRecs env files sv ∧
      ∀ f ∈ files, ∃ b, f.content = some b ∧
        ((∃ r, findByScript f.name sv = some r ∧ r.checksum = toString (hash64 b)) ∨
         (findByScript f.name sv = none ∧ env.execOk b = true)) := by
  intro files
  induction files with
  | nil =>
    intro sv L L' h
    simp [processFiles] at h
    simp [newRecs, h]
  | cons f rest ih =>
    intro sv L L' h
    cases hb : f.content with
    | none =>
      exfalso
      simp [processFiles, readFile, hb] at h
    | some b =>
      cases hfind : findByScript f.name sv with
      | some r =>
        by_cases hcs : r.checksum = toString (hash64 b)
        · have hskip := readFile_skip env f sv L b r hb hfind hcs
          simp only [processFiles, hskip] at h
          obtain ⟨hL, hall⟩ := ih sv L L' h
          refine ⟨by rw [hL, newRecs_cons_found env f rest sv r hfind], ?_⟩
          intro g hg
          rcases List.mem_cons.mp hg with rfl | hg2
          · exact ⟨b, hb, Or.inl ⟨r, hfind, hcs⟩⟩
          · exact hall g hg2
        · have hch := readFile_changed env f sv L b r hb hfind hcs
          simp [processFiles, hch] at h
      | none =>
        cases hexec : env.execOk b with
        | false =>
          have hfail := readFile_execFail env f sv L b hb hfind hexec (hins _)
          simp [processFiles, hfail] at h
        | true =>
          have hok := readFile_execOk env f sv L b hb hfind hexec (hins _)
          simp only [processFiles, hok] at h
          obtain ⟨hL, hall⟩ := ih sv (L ++ [mkSuccessRec env f]) L' h
          refine ⟨?_, ?_⟩
          · rw [hL, newRecs_cons_notfound env f rest sv hfind, List.append_assoc]
            rfl
          · intro g hg
            rcases List.mem_cons.mp hg with rfl | hg2
            · exact ⟨b, hb, Or.inr ⟨hfind, hexec⟩⟩
            · exact hall g hg2

theorem find?_map_script (g : FileEntry → SchemaVersion)
    (hg : ∀ f, (g f).script = f.name) :
    ∀ (fs : List FileEntry), (fs.map FileEntry.name).Nodup →
      ∀ f ∈ fs, (fs.map g).find? (fun r => r.script == f.name) = some (g f) := by
  intro fs
  induction fs with
  | nil => intro _ f hf; simp at hf
  | cons a rest ih =>
    intro hnd f hf
    simp only [List.map_cons, List.nodup_cons] at hnd
    rcases List.mem_cons.mp hf with rfl | hf2
    · simp [List.find?_cons, hg f]
    · have hne : a.name ≠ f.name := by
        intro hEq
        exact hnd.1 (hEq ▸ List.mem_map_of_mem FileEntry.name hf2)
      have htest : ((g a).script == f.name) = false := by
        rw [hg a]
        exact beq_eq_false_iff_ne.mpr hne
      simp only [List.map_cons, List.find?_cons, htest]
      exact ih hnd.2 f hf2

theorem newRecs_find (env : Env) (files : List FileEntry) (sv : List SchemaVersion)
    (hnd : (files.map FileEntry.name).Nodup) (f : FileEntry)
    (hf : f ∈ files) (hnone : findByScript f.name sv = none) :
    findByScript f.name (newRecs env files sv) = some (mkSuccessRec env f) := by
  have hsub : ((files.filter (fun e => (findByScript e.name sv).isNone)).map FileEntry.name).Nodup :=
    List.Nodup.sublist (List.Sublist.map FileEntry.name (List.filter_sublist files)) hnd
  have hmem : f ∈ files.filter (fun e => (findByScript e.name sv).isNone) :=
    List.mem_filter.mpr ⟨hf, by simp [hnone]⟩
  exact find?_map_script (mkSuccessRec env) (fun _ => rfl) _ hsub f hmem

theorem newRecs_status (env : Env) (files : List FileEntry) (sv : List SchemaVersion) :
    ∀ r ∈ newRecs env files sv, r.status = SchemaVersionStatusSuccess := by
  intro r hr
  simp only [newRecs, List.mem_map] at hr
  obtain ⟨f, _, rfl⟩ := hr
  rfl

theorem hasError_none_iff (rows : List SchemaVersion) :
    hasError rows = none ↔ ∀ r ∈ rows, r.status ≠ SchemaVersionStatusError := by
  unfold hasError
  cases hfind : rows.find? (fun sv => sv.status == SchemaVersionStatusError) with
  | some sv =>
    simp only [reduceCtorEq, false_iff, not_forall]
    exact ⟨sv, List.mem_of_find?_eq_some hfind,
      by simpa using (by simpa using List.find?_some hfind : sv.status = SchemaVersionStatusError)⟩
  | none =>
    simp only [true_iff]
    intro r hr
    have := List.find?_eq_none.mp hfind r hr
    simpa using this

theorem hasError_append_none (rows extra : List SchemaVersion)
    (h1 : hasError rows = none)
    (h2 : ∀ r ∈ extra, r.status = SchemaVersionStatusSuccess) :
    hasError (rows ++ extra) = none := by
  rw [hasError_none_iff] at h1 ⊢
  intro r hr
  rcases List.mem_append.mp hr with hL | hR
  · exact h1 r hL
  · rw [h2 r hR]
    simp [SchemaVersionStatusSuccess, SchemaVersionStatusError]

theorem executeFlayway_noerror (env : Env) (rows : List SchemaVersion) (files : List FileEntry)
    (hdir : env.dirListing = some files) (hno : hasError rows = none) :
    executeFlayway env { ledger := some rows } =
      ({ ledger := some (processFiles env files rows rows).1 },
        (processFiles env files rows rows).2) := by
  simp [executeFlayway, hdir, schemaVersionArray_eq, hno]

theorem executeFlayway_error (env : Env) (rows : List SchemaVersion) (files : List FileEntry)
    (e : MErr) (hdir : env.dirListing = some files) (herr : hasError rows = some e) :
    executeFlayway env { ledger := some rows } = ({ ledger := some rows }, some e) := by
  simp [executeFlayway, hdir, schemaVersionArray_eq, herr]

theorem initialFlayway_table_exists (env : Env) (rows : List SchemaVersion)
    (hfl : env.flyway = true) :
    initialFlayway env { ledger := some rows } = executeFlayway env { ledger := some rows } := by
  simp [initialFlayway, hfl, initialSchemaVersion]

theorem initialFlayway_table_created (env : Env)
    (hfl : env.flyway = true) (hddl : env.createTableOk = true) :
    initialFlayway env { ledger := none } = executeFlayway env { ledger := some [] } := by
  simp [initialFlayway, hfl, initialSchemaVersion, hddl]

theorem initialFlayway_table_create_fails (env : Env)
    (hfl : env.flyway = true) (hddl : env.createTableOk = false) :
    initialFlayway env { ledger := none } = ({ ledger := none }, some MErr.ddlErr) := by
  simp [initialFlayway, hfl, initialSchemaVersion, hddl]

theorem hash64_fold_lt :
    ∀ (bytes : List Nat) (h : Nat), h < 2 ^ 64 →
      List.foldl (fun h b => (h * 1099511628211 % 2 ^ 64) ^^^ (b % 256)) h bytes < 2 ^ 64 := by
  intro bytes
  induction bytes with
  | nil => intro h hh; simpa using hh
  | cons b rest ih =>
    intro h _
    apply ih
    exact Nat.xor_lt_two_pow (Nat.mod_lt _ (by norm_num))
      (lt_of_lt_of_le (Nat.mod_lt _ (by norm_num)) (by norm_num))

theorem hash64_lt (bytes : List Nat) : hash64 bytes < 2 ^ 64 :=
  hash64_fold_lt bytes 14695981039346656037 (by norm_num)

/-! Concrete fixtures used by witnesses and counterexamples. -/

/-- A script file whose content is the single byte 65. -/
def fileA : FileEntry := { name := "001_init.sql", content := some [65] }

/-- A script file whose content is the single byte 66. -/
def fileB : FileEntry := { name := "002_seed.sql", content := some [66] }

/-- A ledger row recording a failed attempt of `002_seed.sql`. -/
def recErrA : SchemaVersion :=
  { script := "002_seed.sql", checksum := "123", executionTime := "1ms"
    status := SchemaVersionStatusError }

/-- A SUCCESS ledger row for `001_init.sql` whose stored checksum does not
match fileA's current content. -/
def recBadA : SchemaVersion :=
  { script := "001_init.sql", checksum := "0", executionTime := "1ms"
    status := SchemaVersionStatusSuccess }

/-- Environment where every external call succeeds and the directory holds
only fileA. -/
def envA : Env :=
  { flyway := true, dirListing := some [fileA], createTableOk := true
    execOk := fun _ => true, insertOk := fun _ => true, durationOf := fun _ => "1ms" }

/-- Environment whose directory listing fails. -/
def envB : Env :=
  { flyway := true, dirListing := none, createTableOk := true
    execOk := fun _ => true, insertOk := fun _ => true, durationOf := fun _ => "1ms" }

/-- Environment where the directory holds only fileB and every script
execution fails. -/
def envC : Env :=
  { flyway := true, dirListing := some [fileB], createTableOk := true
    execOk := fun _ => false, insertOk := fun _ => true, durationOf := fun _ => "2ms" }

/-- Environment where script execution succeeds but every ledger insert
fails. -/
def envD : Env :=
  { flyway := true, dirListing := some [fileA], createTableOk := true
    execOk := fun _ => true, insertOk := fun _ => false, durationOf := fun _ => "1ms" }

/-- CRUD oracle outcomes where obtaining the database handle fails. -/
def sqlEnvA : SqlEnv :=
  { getDBErr := some "connection refused", prepareErr := none, stmtExecErr := none
    lastInsertId := 7, lastInsertIdErr := none, rowsAffected := 3, rowsAffectedErr := none
    beginErr := none, callbackErr := none, commitErr := none, scanErr := none, countVal := 5 }

/-- CRUD oracle outcomes where the handle and transaction succeed but the
count scan fails. -/
def sqlEnvB : SqlEnv :=
  { getDBErr := none, prepareErr := none, stmtExecErr := none
    lastInsertId := 7, lastInsertIdErr := none, rowsAffected := 3, rowsAffectedErr := none
    beginErr := none, callbackErr := none, commitErr := none
    scanErr := some "scan failed", countVal := 5 }

/-! Claim theorems. -/

/-- C6: the checksum function is a deterministic, pure function of the
script's content bytes only: equal content byte sequences always hash to the
same value, which fits in 64 bits; no filename, timestamp, or other state is
consulted (`hash64` takes nothing else). -/
theorem hash64_deterministic (c1 c2 : List Nat) (h : c1 = c2) :
    hash64 c1 = hash64 c2 ∧ hash64 c1 < 2 ^ 64 :=
  ⟨congrArg hash64 h, hash64_lt c1⟩

theorem hash64_deterministic_witness :
    [104, 105] = [104, 105] ∧
      (hash64 [104, 105] = hash64 [104, 105] ∧ hash64 [104, 105] < 2 ^ 64) :=
  ⟨rfl, hash64_deterministic [104, 105] [104, 105] rfl⟩

/-- C7: when the configured script directory cannot be listed, the run
returns success while processing no scripts, and the ledger is unchanged, or
created empty when the table did not yet exist. -/
theorem missingDir_silent_success (env : Env) (db : DBState)
    (hfl : env.flyway = true) (hdir : env.dirListing = none)
    (hddl : env.createTableOk = true) :
    initialFlayway env db = ({ ledger := some (db.ledger.getD []) }, none) := by
  cases db with
  | mk ol =>
    cases ol with
    | none =>
      rw [initialFlayway_table_created env hfl hddl]
      simp [executeFlayway, hdir]
    | some rows =>
      rw [initialFlayway_table_exists env rows hfl]
      simp [executeFlayway, hdir]

theorem missingDir_silent_success_witness :
    envB.flyway = true ∧ envB.dirListing = none ∧ envB.createTableOk = true ∧
      initialFlayway envB { ledger := none } = ({ ledger := some [] }, none) :=
  ⟨rfl, rfl, rfl, missingDir_silent_success envB { ledger := none } rfl rfl rfl⟩

/-- C8: listing the ledger's records returns all rows in insertion order, and
on an empty table the empty sequence, never a nil value. -/
theorem schemaVersionArray_insertion_order :
    ∀ rows : List SchemaVersion,
      SchemaVersionArray rows = rows ∧ SchemaVersionArray [] = [] :=
  fun rows => ⟨schemaVersionArray_eq rows, rfl⟩

/-- C9: when `GetDB` fails, `Insert`, `Update` and `Delete` return `(0, nil)`
and `Transaction` returns nil — the connection error is silently discarded at
the public interface. -/
theorem getDBError_swallowed_crud (env : SqlEnv) (e : String)
    (h : env.getDBErr = some e) :
    Insert env = (0, none) ∧ Update env = (0, none) ∧ Delete env = (0, none) ∧
      Transaction env = none := by
  refine ⟨?_, ?_, ?_, ?_⟩ <;> simp [Insert, Update, Delete, Transaction, h]

theorem getDBError_swallowed_crud_witness :
    sqlEnvA.getDBErr = some "connection refused" ∧
      (Insert sqlEnvA = (0, none) ∧ Update sqlEnvA = (0, none) ∧
        Delete sqlEnvA = (0, none) ∧ Transaction sqlEnvA = none) :=
  ⟨rfl, getDBError_swallowed_crud sqlEnvA "connection refused" rfl⟩

/-- C10: when the transaction begins successfully but scanning the count row
fails, `Count` returns `(0, nil)` — the scan error held in `countErr` is
never returned, the earlier nil `err` is. -/
theorem countScanError_swallowed (env : SqlEnv) (e : String)
    (h1 : env.getDBErr = none) (h2 : env.beginErr = none)
    (h3 : env.scanErr = some e) :
    Count env = (0, none) := by
  simp [Count, h1, h2, h3]

theorem countScanError_swallowed_witness :
    sqlEnvB.getDBErr = none ∧ sqlEnvB.beginErr = none ∧
      sqlEnvB.scanErr = some "scan failed" ∧ Count sqlEnvB = (0, none) :=
  ⟨rfl, rfl, rfl, countScanError_swallowed sqlEnvB "scan failed" rfl rfl rfl⟩

/-- C1: an unrecorded script whose execution fails gets exactly one ERROR row
appended (assuming the ledger accepts the insert), the execution error is
returned, and no script after it in listing order is attempted — the result
is the same for every tail `post`. -/
theorem failedScript_records_error_and_halts (env : Env) (db : DBState)
    (rows L1 : List SchemaVersion) (pre post : List FileEntry) (f : FileEntry)
    (b : List Nat)
    (hl : db.ledger = some rows)
    (hdir : env.dirListing = some (pre ++ f :: post))
    (hno : hasError rows = none)
    (hpre : processFiles env pre rows rows = (L1, none))
    (hb : f.content = some b)
    (hfind : findByScript f.name rows = none)
    (hexec : env.execOk b = false)
    (hins : env.insertOk (mkErrorRec env f b) = true) :
    executeFlayway env db =
      ({ ledger := some (L1 ++ [mkErrorRec env f b]) }, some (MErr.execErr f.name)) ∧
      (mkErrorRec env f b).status = SchemaVersionStatusError := by
  have hstep : processFiles env (pre ++ f :: post) rows rows =
      (L1 ++ [mkErrorRec env f b], some (MErr.execErr f.name)) := by
    rw [processFiles_append env rows pre rows L1 hpre (f :: post)]
    have hrf := readFile_execFail env f rows L1 b hb hfind hexec hins
    simp [processFiles, hrf]
  have hdb : db = { ledger := some rows } := by
    cases db with
    | mk ol => simp only [DBState.mk.injEq]; exact hl
  rw [hdb, executeFlayway_noerror env rows _ hdir hno, hstep]
  exact ⟨rfl, rfl⟩

theorem failedScript_records_error_and_halts_witness :
    executeFlayway envC { ledger := some [] } =
      ({ ledger := some [mkErrorRec envC fileB [66]] }, some (MErr.execErr "002_seed.sql")) ∧
      (mkErrorRec envC fileB [66]).status = SchemaVersionStatusError :=
  failedScript_records_error_and_halts envC { ledger := some [] } [] [] [] [] fileB [66]
    rfl rfl rfl rfl rfl rfl rfl rfl

/-- C2 counterexample: with an ERROR row in the ledger but an unlistable
script directory, the run returns success instead of the unresolved-failure
error, because `executeFlayway` returns nil on a directory-listing failure
before it ever consults the ledger. -/
theorem ledgerError_ignored_when_dir_unlistable :
    hasError [recErrA] = some (MErr.abnormalState "002_seed.sql") ∧
      initialFlayway envB { ledger := some [recErrA] } =
        ({ ledger := some [recErrA] }, none) :=
  ⟨rfl, rfl⟩

/-- C2 (amended): provided the script directory can be listed, a ledger
containing an ERROR record makes the run fail immediately with the
abnormal-state error for the first such record; the ledger is unchanged and
no script is read, executed, or recorded — the result is the same for every
directory content `files`. -/
theorem ledgerError_halts_run (env : Env) (db : DBState) (rows : List SchemaVersion)
    (files : List FileEntry) (e : MErr)
    (hfl : env.flyway = true)
    (hl : db.ledger = some rows)
    (hdir : env.dirListing = some files)
    (herr : hasError rows = some e) :
    initialFlayway env db = (db, some e) := by
  have hdb : db = { ledger := some rows } := by
    cases db with
    | mk ol => simp only [DBState.mk.injEq]; exact hl
  rw [hdb, initialFlayway_table_exists env rows hfl,
    executeFlayway_error env rows files e hdir herr]

theorem ledgerError_halts_run_witness :
    initialFlayway envA { ledger := some [recErrA] } =
      ({ ledger := some [recErrA] }, some (MErr.abnormalState "002_seed.sql")) :=
  ledgerError_halts_run envA { ledger := some [recErrA] } [recErrA] [fileA]
    (MErr.abnormalState "002_seed.sql") rfl rfl rfl rfl

/-- C3: a script found in the ledger whose recomputed checksum differs from
the stored one fails the whole run immediately with the file-changed error;
zero additional rows are appended for it or any script after it in listing
order — the result is the same for every tail `post`. -/
theorem changedScript_hard_stop (env : Env) (db : DBState)
    (rows L1 : List SchemaVersion) (pre post : List FileEntry) (f : FileEntry)
    (b : List Nat) (sv : SchemaVersion)
    (hl : db.ledger = some rows)
    (hdir : env.dirListing = some (pre ++ f :: post))
    (hno : hasError rows = none)
    (hpre : processFiles env pre rows rows = (L1, none))
    (hb : f.content = some b)
    (hfind : findByScript f.name rows = some sv)
    (hdiff : sv.checksum ≠ toString (hash64 b)) :
    executeFlayway env db = ({ ledger := some L1 }, some (MErr.fileChanged f.name)) := by
  have hstep : processFiles env (pre ++ f :: post) rows rows =
      (L1, some (MErr.fileChanged f.name)) := by
    rw [processFiles_append env rows pre rows L1 hpre (f :: post)]
    have hrf := readFile_changed env f rows L1 b sv hb hfind hdiff
    simp [processFiles, hrf]
  have hdb : db = { ledger := some rows } := by
    cases db with
    | mk ol => simp only [DBState.mk.injEq]; exact hl
  rw [hdb, executeFlayway_noerror env rows _ hdir hno, hstep]

theorem changedScript_hard_stop_witness :
    executeFlayway envA { ledger := some [recBadA] } =
      ({ ledger := some [recBadA] }, some (MErr.fileChanged "001_init.sql")) :=
  changedScript_hard_stop envA { ledger := some [recBadA] } [recBadA] [recBadA] [] []
    fileA [65] recBadA rfl rfl rfl rfl rfl rfl (by decide)

/-- C5 counterexample: with the ledger insert failing, a run whose single
script executes successfully returns success and appends nothing — the
append failure is logged and discarded, never surfaced to the caller. -/
theorem insertFailure_swallowed_cex :
    envD.insertOk (mkSuccessRec envD fileA) = false ∧
      initialFlayway envD { ledger := some [] } = ({ ledger := some [] }, none) :=
  ⟨rfl, rfl⟩

/-- C5 (amended): errors during migration processing are propagated except
two lenient cases: the missing-directory leniency and a failure of the
ledger-row insert, which `insertSchemaVersion` only logs — the call's
outcome is exactly the script's execution outcome and the failed append
leaves the ledger unchanged. -/
theorem insertFailure_discarded (env : Env) (f : FileEntry)
    (sv ledger : List SchemaVersion) (b : List Nat)
    (hb : f.content = some b)
    (hfind : findByScript f.name sv = none)
    (hins : ∀ r, env.insertOk r = false) :
    readFile env f sv ledger =
      (ledger, if env.execOk b then none else some (MErr.execErr f.name)) := by
  simp [readFile, hb, hfind, insertSchemaVersion, hins]

theorem insertFailure_discarded_witness :
    fileA.content = some [65] ∧ readFile envD fileA [] [] = ([], none) :=
  ⟨rfl, insertFailure_discarded envD fileA [] [] [65] rfl rfl (fun _ => rfl)⟩

/-- C4: running migrations twice in sequence over the same unchanged script
directory is idempotent: if the first run succeeds — the directory listable,
file names distinct as on a real filesystem, ledger inserts accepted — the
second run succeeds and leaves the database state, in particular the ledger,
exactly as the first run left it: every script is found with a matching
checksum and skipped, so zero new rows are appended. -/
theorem rerun_idempotent (env : Env) (db db1 : DBState) (files : List FileEntry)
    (hdir : env.dirListing = some files)
    (hnd : (files.map FileEntry.name).Nodup)
    (hins : ∀ r, env.insertOk r = true)
    (h1 : initialFlayway env db = (db1, none)) :
    initialFlayway env db1 = (db1, none) := by
  cases hfl : env.flyway with
  | false =>
    simp [initialFlayway, hfl] at h1
    simp [initialFlayway, hfl, h1]
  | true =>
    obtain ⟨rows0, h1'⟩ : ∃ rows0, executeFlayway env { ledger := some rows0 } = (db1, none) := by
      cases db with
      | mk ol =>
        cases ol with
        | some rows => exact ⟨rows, by rwa [initialFlayway_table_exists env rows hfl] at h1⟩
        | none =>
          cases hddl : env.createTableOk with
          | true => exact ⟨[], by rwa [initialFlayway_table_created env hfl hddl] at h1⟩
          | false =>
            rw [initialFlayway_table_create_fails env hfl hddl] at h1
            simp at h1
    cases hno : hasError rows0 with
    | some e =>
      rw [executeFlayway_error env rows0 files e hdir hno] at h1'
      simp at h1'
    | none =>
      rw [executeFlayway_noerror env rows0 files hdir hno] at h1'
      rcases hP : processFiles env files rows0 rows0 with ⟨rows1, e1⟩
      rw [hP] at h1'
      rw [Prod.mk.injEq] at h1'
      obtain ⟨hdb1, he1⟩ := h1'
      subst he1
      subst hdb1
      obtain ⟨hrows1, hall⟩ := processFiles_ok_spec env hins files rows0 rows0 rows1 hP
      rw [initialFlayway_table_exists env rows1 hfl]
      have hno1 : hasError rows1 = none := by
        rw [hrows1]
        exact hasError_append_none rows0 (newRecs env files rows0) hno
          (newRecs_status env files rows0)
      rw [executeFlayway_noerror env rows1 files hdir hno1]
      have hskip : processFiles env files rows1 rows1 = (rows1, none) := by
        refine processFiles_all_skip env files rows1 ?_ rows1
        intro f hf
        obtain ⟨b, hb, hcase⟩ := hall f hf
        rcases hcase with ⟨r, hfr, hcr⟩ | ⟨hfn, _⟩
        · refine ⟨b, r, hb, ?_, hcr⟩
          rw [hrows1, findByScript_append, hfr]
          rfl
        · refine ⟨b, mkSuccessRec env f, hb, ?_, ?_⟩
          · rw [hrows1, findByScript_append, hfn,
              newRecs_find env files rows0 hnd f hf hfn]
            rfl
          · simp [mkSuccessRec, hb]
      rw [hskip]

theorem rerun_idempotent_witness :
    initialFlayway envA { ledger := some [] } =
        ({ ledger := some [mkSuccessRec envA fileA] }, none) ∧
      initialFlayway envA { ledger := some [mkSuccessRec envA fileA] } =
        ({ ledger := some [mkSuccessRec envA fileA] }, none) :=
  ⟨rfl, rerun_idempotent envA { ledger := some [] }
    { ledger := some [mkSuccessRec envA fileA] } [fileA] rfl (by simp) (fun _ => rfl) rfl⟩

end SqliteClient
